import Mathlib

/-!
Verification development for the time-cycle analytic engine
(`engine/pivots.py`, `engine/triangle.py`, `engine/intervals.py`,
`engine/backtesting.py`, `engine/holidays.py`).

Prices are embedded as exact rationals (`ℚ`), bar positions as naturals,
calendar days as integers (day 0 is a Monday, so `weekday d = d % 7`,
Monday = 0 … Sunday = 6, matching `pandas.Timestamp.weekday`), and
intraday timestamps in bar-count mode as naturals counting minutes since
an epoch midnight (so `t / 1440` is the day and `t % 1440` the
time-of-day in minutes; 09:15 = 555, 15:29 = 929, 15:30 = 930).

Python `while` loops whose bound is not structural are embedded with an
explicit fuel parameter and return `Option`: `none` means the loop has
not finished within `fuel` iterations, so a loop that diverges in Python
is a function returning `none` for every fuel bound.  Python exceptions
(e.g. `ZeroDivisionError`) are embedded as `Option`/`none` results.
-/

namespace TimeCycle

/-- `numpy.ndarray.max` over a nonempty window (the code only calls it on
nonempty slices; the `[]` case is junk). -/
def listMax : List ℚ → ℚ
  | [] => 0
  | x :: xs => xs.foldl max x

/-- `numpy.ndarray.min` over a nonempty window. -/
def listMin : List ℚ → ℚ
  | [] => 0
  | x :: xs => xs.foldl min x

/-- Pivot type tag: the `"H"` / `"L"` strings of `detect_pivots`. -/
inductive PivType where
  | H
  | L
deriving DecidableEq, Repr

/-- The `rejection_reason` strings of `detect_pivots`, embedded as the
data they carry: `insufficientMove p n m` stands for
`"Insufficient movement: prev=p, next=n < m"`, and `notDominant bp bn`
records which flanking dominance checks passed (`bp` = higher/lower than
the previous window, `bn` = than the next window). -/
inductive RejectReason where
  | insufficientMove (movePrev moveNext required : ℚ)
  | notDominant (okPrev okNext : Bool)
deriving DecidableEq, Repr

/-- One row of the dataframe built by `detect_pivots`
(columns `idx, type, price, abs_move, valid, rejection_reason`;
`idx` is the bar's position, since `df.index` enumerates the bars). -/
structure PivotRec where
  idx : ℕ
  ptype : PivType
  price : ℚ
  abs_move : ℚ
  valid : Bool
  rejection_reason : Option RejectReason
deriving DecidableEq, Repr

/-- The pivot-high half of one iteration of the scan loop of
`detect_pivots` (`engine/pivots.py`): windows `highs[i-rng:i]`,
`highs[i+1:i+rng+1]` (idem for lows), strict dominance on both sides,
then the minimum-move check; with `return_all` set, one-sided
near-misses are also appended as invalid rows. -/
def emitH (highs lows : List ℚ) (rng : ℕ) (min_move : ℚ) (return_all : Bool)
    (i : ℕ) : List PivotRec :=
  let window_prev_high := (highs.drop (i - rng)).take rng
  let window_next_high := (highs.drop (i + 1)).take rng
  let window_prev_low := (lows.drop (i - rng)).take rng
  let window_next_low := (lows.drop (i + 1)).take rng
  let hi := highs.getD i 0
  let is_higher_than_prev : Prop := hi > listMax window_prev_high
  let is_higher_than_next : Prop := hi > listMax window_next_high
  if is_higher_than_prev ∧ is_higher_than_next then
    let move_down_prev := hi - listMin window_prev_low
    let move_down_next := hi - listMin window_next_low
    let min_move_achieved : Prop := move_down_prev ≥ min_move ∧ move_down_next ≥ min_move
    if min_move_achieved ∨ return_all = true then
      [{ idx := i, ptype := .H, price := hi,
         abs_move := min move_down_prev move_down_next,
         valid := decide min_move_achieved,
         rejection_reason := if min_move_achieved then none else
           some (.insufficientMove move_down_prev move_down_next min_move) }]
    else []
  else if return_all = true ∧ (is_higher_than_prev ∨ is_higher_than_next) then
    [{ idx := i, ptype := .H, price := hi, abs_move := 0, valid := false,
       rejection_reason :=
         some (.notDominant (decide is_higher_than_prev) (decide is_higher_than_next)) }]
  else []

/-- The pivot-low half of one iteration of the scan loop of
`detect_pivots`: mirror of `emitH` using lows/highs. -/
def emitL (highs lows : List ℚ) (rng : ℕ) (min_move : ℚ) (return_all : Bool)
    (i : ℕ) : List PivotRec :=
  let window_prev_high := (highs.drop (i - rng)).take rng
  let window_next_high := (highs.drop (i + 1)).take rng
  let window_prev_low := (lows.drop (i - rng)).take rng
  let window_next_low := (lows.drop (i + 1)).take rng
  let lo := lows.getD i 0
  let is_lower_than_prev : Prop := lo < listMin window_prev_low
  let is_lower_than_next : Prop := lo < listMin window_next_low
  if is_lower_than_prev ∧ is_lower_than_next then
    let move_up_prev := listMax window_prev_high - lo
    let move_up_next := listMax window_next_high - lo
    let min_move_achieved : Prop := move_up_prev ≥ min_move ∧ move_up_next ≥ min_move
    if min_move_achieved ∨ return_all = true then
      [{ idx := i, ptype := .L, price := lo,
         abs_move := min move_up_prev move_up_next,
         valid := decide min_move_achieved,
         rejection_reason := if min_move_achieved then none else
           some (.insufficientMove move_up_prev move_up_next min_move) }]
    else []
  else if return_all = true ∧ (is_lower_than_prev ∨ is_lower_than_next) then
    [{ idx := i, ptype := .L, price := lo, abs_move := 0, valid := false,
       rejection_reason :=
         some (.notDominant (decide is_lower_than_prev) (decide is_lower_than_next)) }]
  else []

/-- `detect_pivots(df, pivot_range, min_move, return_all)` of
`engine/pivots.py`, with the dataframe given by its `High` and `Low`
columns.  The scan `for i in range(rng, len(df) - rng)` is
`List.range' rng (highs.length - rng - rng)`; each iteration appends the
pivot-high check then the pivot-low check.  (With `return_all = false`
invalid rows are never appended, so the closing back-compat filter of
the Python function drops no rows and is omitted.) -/
def detect_pivots (highs lows : List ℚ) (pivot_range : ℕ) (min_move : ℚ)
    (return_all : Bool) : List PivotRec :=
  (List.range' pivot_range (highs.length - pivot_range - pivot_range)).flatMap
    (fun i => emitH highs lows pivot_range min_move return_all i ++
              emitL highs lows pivot_range min_move return_all i)

/-- `true` exactly on rows appended by the one-sided (`elif`) branches
of `detect_pivots`, i.e. rows that record a failed strict-dominance
test; rows from the dominance-passing branch carry either no reason or
an insufficient-movement reason. -/
def isDominanceReject (r : PivotRec) : Bool :=
  match r.rejection_reason with
  | some (.notDominant _ _) => true
  | _ => false

/-- The pivot-high clause of the window property: a pivot-high candidate
(a `"H"` row that is not a dominance-rejection marker) is emitted at bar
`i` iff `high[i]` strictly dominates the max high of both exclusive
flanking windows, and any such candidate is valid iff both side moves
(`high[i]` minus the min low of each window) reach `min_move`, its
recorded move magnitude being the smaller of the two side moves. -/
def pivotHighSpecAt (highs lows : List ℚ) (rng : ℕ) (mm : ℚ) (i : ℕ) : Prop :=
  ((∃ r ∈ detect_pivots highs lows rng mm true,
      r.idx = i ∧ r.ptype = .H ∧ isDominanceReject r = false) ↔
    (highs.getD i 0 > listMax ((highs.drop (i - rng)).take rng) ∧
     highs.getD i 0 > listMax ((highs.drop (i + 1)).take rng)))
  ∧ (∀ r ∈ detect_pivots highs lows rng mm true,
      r.idx = i → r.ptype = .H → isDominanceReject r = false →
      (r.valid = true ↔
        (highs.getD i 0 - listMin ((lows.drop (i - rng)).take rng) ≥ mm ∧
         highs.getD i 0 - listMin ((lows.drop (i + 1)).take rng) ≥ mm)) ∧
      r.abs_move = min (highs.getD i 0 - listMin ((lows.drop (i - rng)).take rng))
                       (highs.getD i 0 - listMin ((lows.drop (i + 1)).take rng)))

/-- The mirrored pivot-low clause of the window property, with
lows/highs exchanged. -/
def pivotLowSpecAt (highs lows : List ℚ) (rng : ℕ) (mm : ℚ) (i : ℕ) : Prop :=
  ((∃ r ∈ detect_pivots highs lows rng mm true,
      r.idx = i ∧ r.ptype = .L ∧ isDominanceReject r = false) ↔
    (lows.getD i 0 < listMin ((lows.drop (i - rng)).take rng) ∧
     lows.getD i 0 < listMin ((lows.drop (i + 1)).take rng)))
  ∧ (∀ r ∈ detect_pivots highs lows rng mm true,
      r.idx = i → r.ptype = .L → isDominanceReject r = false →
      (r.valid = true ↔
        (listMax ((highs.drop (i - rng)).take rng) - lows.getD i 0 ≥ mm ∧
         listMax ((highs.drop (i + 1)).take rng) - lows.getD i 0 ≥ mm)) ∧
      r.abs_move = min (listMax ((highs.drop (i - rng)).take rng) - lows.getD i 0)
                       (listMax ((highs.drop (i + 1)).take rng) - lows.getD i 0))

lemma emitH_shape {highs lows : List ℚ} {rng : ℕ} {mm : ℚ} {ra : Bool} {i : ℕ}
    {r : PivotRec} (h : r ∈ emitH highs lows rng mm ra i) :
    r.idx = i ∧ r.ptype = .H := by
  simp only [emitH] at h
  split_ifs at h <;> simp only [List.mem_singleton, List.not_mem_nil] at h <;>
    (subst h; exact ⟨rfl, rfl⟩)

lemma emitL_shape {highs lows : List ℚ} {rng : ℕ} {mm : ℚ} {ra : Bool} {i : ℕ}
    {r : PivotRec} (h : r ∈ emitL highs lows rng mm ra i) :
    r.idx = i ∧ r.ptype = .L := by
  simp only [emitL] at h
  split_ifs at h <;> simp only [List.mem_singleton, List.not_mem_nil] at h <;>
    (subst h; exact ⟨rfl, rfl⟩)

lemma mem_detect_pivots {highs lows : List ℚ} {rng : ℕ} {mm : ℚ} {ra : Bool}
    {r : PivotRec} :
    r ∈ detect_pivots highs lows rng mm ra ↔
      ∃ j ∈ List.range' rng (highs.length - rng - rng),
        r ∈ emitH highs lows rng mm ra j ∨ r ∈ emitL highs lows rng mm ra j := by
  simp [detect_pivots, List.mem_flatMap, List.mem_append]

/-- Claim C1: for every bar index `i` with `R ≤ i < length − R`,
`detect_pivots` emits a pivot-high candidate at `i` iff `high[i]` is
strictly greater than the max high of the `R` bars strictly before `i`
and of the `R` bars strictly after `i`; the candidate is valid iff both
`high[i] − min(left-window lows) ≥ M` and
`high[i] − min(right-window lows) ≥ M`, and its recorded move magnitude
is the smaller of the two side moves; mirrored for pivot lows. -/
theorem detect_pivots_window_property
    (highs lows : List ℚ) (rng : ℕ) (mm : ℚ) (i : ℕ)
    (_hrng : 1 ≤ rng) (_hlen : lows.length = highs.length)
    (h1 : rng ≤ i) (h2 : i < highs.length - rng) :
    pivotHighSpecAt highs lows rng mm i ∧ pivotLowSpecAt highs lows rng mm i := by
  have hiR : i ∈ List.range' rng (highs.length - rng - rng) := by
    rw [List.mem_range'_1]; omega
  constructor
  · constructor
    · constructor
      · rintro ⟨r, hr, hidx, hty, hdr⟩
        rw [mem_detect_pivots] at hr
        obtain ⟨j, _, hr | hr⟩ := hr
        · obtain ⟨hji, -⟩ := emitH_shape hr
          rw [hidx] at hji; subst hji
          simp only [emitH] at hr
          split_ifs at hr with hd hmm hre hel <;>
            simp only [List.mem_singleton, List.not_mem_nil] at hr
          · exact hd
          · exact hd
          · subst hr; simp [isDominanceReject] at hdr
        · obtain ⟨-, hty'⟩ := emitL_shape hr
          rw [hty] at hty'; cases hty'
      · intro hdom
        refine ⟨{
              idx := i, ptype := .H, price := highs.getD i 0,
              abs_move :=
                min (highs.getD i 0 - listMin ((lows.drop (i - rng)).take rng))
                    (highs.getD i 0 - listMin ((lows.drop (i + 1)).take rng)),
              valid := decide
                (highs.getD i 0 - listMin ((lows.drop (i - rng)).take rng) ≥ mm ∧
                 highs.getD i 0 - listMin ((lows.drop (i + 1)).take rng) ≥ mm),
              rejection_reason :=
                if highs.getD i 0 - listMin ((lows.drop (i - rng)).take rng) ≥ mm ∧
                   highs.getD i 0 - listMin ((lows.drop (i + 1)).take rng) ≥ mm then none
                else some (.insufficientMove
                  (highs.getD i 0 - listMin ((lows.drop (i - rng)).take rng))
                  (highs.getD i 0 - listMin ((lows.drop (i + 1)).take rng)) mm) },
          ?_, rfl, rfl, ?_⟩
        · rw [mem_detect_pivots]
          refine ⟨i, hiR, Or.inl ?_⟩
          simp only [emitH]
          rw [if_pos hdom, if_pos (Or.inr trivial)]
          exact List.mem_singleton.2 rfl
        · by_cases hach :
            highs.getD i 0 - listMin ((lows.drop (i - rng)).take rng) ≥ mm ∧
            highs.getD i 0 - listMin ((lows.drop (i + 1)).take rng) ≥ mm
          · simp [isDominanceReject, hach]
          · simp [isDominanceReject, hach]
    · intro r hr hidx hty hdr
      rw [mem_detect_pivots] at hr
      obtain ⟨j, _, hr | hr⟩ := hr
      · obtain ⟨hji, -⟩ := emitH_shape hr
        rw [hidx] at hji; subst hji
        simp only [emitH] at hr
        split_ifs at hr with hd hmm hre hel <;>
          simp only [List.mem_singleton, List.not_mem_nil] at hr
        · subst hr; simp
        · subst hr; simp
        · subst hr; simp [isDominanceReject] at hdr
      · obtain ⟨-, hty'⟩ := emitL_shape hr
        rw [hty] at hty'; cases hty'
  · constructor
    · constructor
      · rintro ⟨r, hr, hidx, hty, hdr⟩
        rw [mem_detect_pivots] at hr
        obtain ⟨j, _, hr | hr⟩ := hr
        · obtain ⟨-, hty'⟩ := emitH_shape hr
          rw [hty] at hty'; cases hty'
        · obtain ⟨hji, -⟩ := emitL_shape hr
          rw [hidx] at hji; subst hji
          simp only [emitL] at hr
          split_ifs at hr with hd hmm hre hel <;>
            simp only [List.mem_singleton, List.not_mem_nil] at hr
          · exact hd
          · exact hd
          · subst hr; simp [isDominanceReject] at hdr
      · intro hdom
        refine ⟨{
              idx := i, ptype := .L, price := lows.getD i 0,
              abs_move :=
                min (listMax ((highs.drop (i - rng)).take rng) - lows.getD i 0)
                    (listMax ((highs.drop (i + 1)).take rng) - lows.getD i 0),
              valid := decide
                (listMax ((highs.drop (i - rng)).take rng) - lows.getD i 0 ≥ mm ∧
                 listMax ((highs.drop (i + 1)).take rng) - lows.getD i 0 ≥ mm),
              rejection_reason :=
                if listMax ((highs.drop (i - rng)).take rng) - lows.getD i 0 ≥ mm ∧
                   listMax ((highs.drop (i + 1)).take rng) - lows.getD i 0 ≥ mm then none
                else some (.insufficientMove
                  (listMax ((highs.drop (i - rng)).take rng) - lows.getD i 0)
                  (listMax ((highs.drop (i + 1)).take rng) - lows.getD i 0) mm) },
          ?_, rfl, rfl, ?_⟩
        · rw [mem_detect_pivots]
          refine ⟨i, hiR, Or.inr ?_⟩
          simp only [emitL]
          rw [if_pos hdom, if_pos (Or.inr trivial)]
          exact List.mem_singleton.2 rfl
        · by_cases hach :
            listMax ((highs.drop (i - rng)).take rng) - lows.getD i 0 ≥ mm ∧
            listMax ((highs.drop (i + 1)).take rng) - lows.getD i 0 ≥ mm
          · simp [isDominanceReject, hach]
          · simp [isDominanceReject, hach]
    · intro r hr hidx hty hdr
      rw [mem_detect_pivots] at hr
      obtain ⟨j, _, hr | hr⟩ := hr
      · obtain ⟨-, hty'⟩ := emitH_shape hr
        rw [hty] at hty'; cases hty'
      · obtain ⟨hji, -⟩ := emitL_shape hr
        rw [hidx] at hji; subst hji
        simp only [emitL] at hr
        split_ifs at hr with hd hmm hre hel <;>
          simp only [List.mem_singleton, List.not_mem_nil] at hr
        · subst hr; simp
        · subst hr; simp
        · subst hr; simp [isDominanceReject] at hdr


/-- Witness for the window property: on the three-bar series with highs
`[1, 5, 1]` and lows `[0, 1, 0]`, radius 1 and minimum move 2, the
window property holds at the middle bar. -/
theorem detect_pivots_window_property_witness :
    (1 ≤ 1 ∧ ([0, 1, 0] : List ℚ).length = ([1, 5, 1] : List ℚ).length ∧
      1 ≤ 1 ∧ 1 < ([1, 5, 1] : List ℚ).length - 1) ∧
    (pivotHighSpecAt [1, 5, 1] [0, 1, 0] 1 2 1 ∧
     pivotLowSpecAt [1, 5, 1] [0, 1, 0] 1 2 1) :=
  ⟨⟨le_refl 1, by decide, le_refl 1, by decide⟩,
   detect_pivots_window_property [1, 5, 1] [0, 1, 0] 1 2 1
     (le_refl 1) (by decide) (le_refl 1) (by decide)⟩


/-! ## Business calendar and interval projection (`engine/holidays.py`,
`engine/intervals.py`)

A holiday set is embedded by its membership function.  Calendar-day mode
works on integer day numbers; bar-count mode works on natural-number
minute timestamps (`t / 1440` = day, `t % 1440` = time of day). -/

/-- `is_business_day(date, holidays)` of `engine/holidays.py`:
weekday (Mon–Fri, i.e. `weekday < 5`) and not in the holiday set. -/
def is_business_day (holidays : ℤ → Bool) (d : ℤ) : Bool :=
  decide (d % 7 < 5) && !(holidays d)

/-- The backward scan of calendar-day mode in `project_intervals`
(`while not is_business_day(before): before -= 1`), with explicit fuel:
`none` means the loop has not found a business day within `fuel`
steps — the code has no iteration cap, so this loop can run forever. -/
def scan_back (holidays : ℤ → Bool) : ℕ → ℤ → Option ℤ
  | 0, _ => none
  | fuel + 1, d =>
    if is_business_day holidays d then some d
    else scan_back holidays fuel (d - 1)

/-- The forward scan of calendar-day mode in `project_intervals`
(`while not is_business_day(after): after += 1`); its result is
computed but never recorded. -/
def scan_fwd (holidays : ℤ → Bool) : ℕ → ℤ → Option ℤ
  | 0, _ => none
  | fuel + 1, d =>
    if is_business_day holidays d then some d
    else scan_fwd holidays fuel (d + 1)

/-- One iteration of the calendar-day mode of `project_intervals` for a
single pivot timestamp and interval: `projected = pivot_ts + iv` days;
a business-day result is recorded as is, otherwise both scans run and
the backward result (`before`) is the one recorded. -/
def project_calendar_one (holidays : ℤ → Bool) (fuel : ℕ) (pivot_ts : ℤ)
    (iv : ℕ) : Option ℤ :=
  let projected := pivot_ts + iv
  if is_business_day holidays projected then some projected
  else
    match scan_back holidays fuel projected, scan_fwd holidays fuel projected with
    | some before, some _ => some before
    | _, _ => none

/-- The calendar-day mode of `project_intervals` over the full
cross-product of pivots and intervals (pivot timestamps given already in
ascending order, as after `sort_values()`); `none` if any scan fails to
finish within `fuel`. -/
def project_intervals_calendar (holidays : ℤ → Bool) (fuel : ℕ)
    (pivots : List ℤ) (intervals : List ℕ) : Option (List (ℤ × ℕ × ℤ)) :=
  (pivots.mapM (fun p => intervals.mapM (fun iv =>
      (project_calendar_one holidays fuel p iv).map (fun r => (p, iv, r))))).map
    List.flatten

/-- The day-stepping loop of `next_valid_day` in the bar-count mode of
`project_intervals` (`while next_day.weekday() >= 5 or next_day.date()
in holiday_set: next_day += 1 day`), on day numbers with explicit fuel;
again the code has no iteration cap. -/
def nvd_loop (holiday_set : ℕ → Bool) : ℕ → ℕ → Option ℕ
  | 0, _ => none
  | fuel + 1, d =>
    if 5 ≤ d % 7 ∨ holiday_set d = true then nvd_loop holiday_set fuel (d + 1)
    else some d

/-- `next_valid_day(current_time, holiday_set)` of bar-count mode:
steps to the next day whose weekday/holiday test passes and returns it
at 09:15 (`replace(hour=9, minute=15)`), i.e. minute 555 of that day. -/
def next_valid_day (holiday_set : ℕ → Bool) (fuel : ℕ) (t : ℕ) : Option ℕ :=
  (nvd_loop holiday_set fuel (t / 1440 + 1)).map (fun d => d * 1440 + 555)

/-- The `while total_bars > 0` loop of bar-count mode in
`project_intervals`, for one pivot and one interval.
`interval_minutes` is the bar size the code infers from the first two
session bars (the Python arithmetic `replace(minute=30 -
interval_minutes)` is only defined for sizes up to 30 minutes).
`last_start` is 15:(30−interval) on the current day, i.e. minute
`930 - interval_minutes`; a day's remaining capacity is
`(last_start - t) / interval_minutes` bars, and an exhausted day rolls
to the next valid day's 09:15. -/
def project_bars_loop (holiday_set : ℕ → Bool) (interval_minutes : ℕ) :
    ℕ → ℕ → ℕ → Option ℕ
  | 0, total_bars, t => if total_bars = 0 then some t else none
  | fuel + 1, total_bars, t =>
    if total_bars = 0 then some t
    else
      let last_start := t / 1440 * 1440 + (930 - interval_minutes)
      if last_start ≤ t then
        match next_valid_day holiday_set (fuel + 1) t with
        | none => none
        | some t' => project_bars_loop holiday_set interval_minutes fuel total_bars t'
      else
        let bars_today := (last_start - t) / interval_minutes
        if bars_today = 0 then
          match next_valid_day holiday_set (fuel + 1) t with
          | none => none
          | some t' => project_bars_loop holiday_set interval_minutes fuel total_bars t'
        else
          let bars_to_consume := min total_bars bars_today
          project_bars_loop holiday_set interval_minutes fuel
            (total_bars - bars_to_consume) (t + bars_to_consume * interval_minutes)

/-- Bar-count-mode projection of one pivot timestamp by `iv` bars:
`projected_time` starts at the pivot and the loop consumes `iv` bars. -/
def project_bars_one (holiday_set : ℕ → Bool) (interval_minutes : ℕ)
    (fuel : ℕ) (pivot_ts : ℕ) (iv : ℕ) : Option ℕ :=
  project_bars_loop holiday_set interval_minutes fuel iv pivot_ts


/-- Claim C2 (refuted — the code lacks the mandated cap): on a calendar
that marks every day a holiday, none of the business-day-skipping loops
of `project_intervals` ever finishes, for any iteration budget: the
calendar-mode backward and forward scans, the bar-mode `next_valid_day`
day loop, and hence the whole calendar-mode projection never produce a
result.  There is no hard iteration cap and no configuration error —
the fuel-free Python loops run forever. -/
theorem all_holiday_calendar_never_terminates :
    ∀ (fuel : ℕ) (d : ℤ) (t td : ℕ) (p : ℤ) (iv : ℕ),
      scan_back (fun _ => true) fuel d = none ∧
      scan_fwd (fun _ => true) fuel d = none ∧
      nvd_loop (fun _ => true) fuel td = none ∧
      next_valid_day (fun _ => true) fuel t = none ∧
      project_calendar_one (fun _ => true) fuel p iv = none := by
  have hsb : ∀ (fuel : ℕ) (d : ℤ), scan_back (fun _ => true) fuel d = none := by
    intro fuel
    induction fuel with
    | zero => intro d; rfl
    | succ f ih => intro d; simp [scan_back, is_business_day, ih]
  have hsf : ∀ (fuel : ℕ) (d : ℤ), scan_fwd (fun _ => true) fuel d = none := by
    intro fuel
    induction fuel with
    | zero => intro d; rfl
    | succ f ih => intro d; simp [scan_fwd, is_business_day, ih]
  have hnvd : ∀ (fuel td : ℕ), nvd_loop (fun _ => true) fuel td = none := by
    intro fuel
    induction fuel with
    | zero => intro td; rfl
    | succ f ih => intro td; simp [nvd_loop, ih]
  intro fuel d t td p iv
  refine ⟨hsb fuel d, hsf fuel d, hnvd fuel td, ?_, ?_⟩
  · simp [next_valid_day, hnvd]
  · simp [project_calendar_one, is_business_day, hsb, hsf]

lemma scan_back_spec (holidays : ℤ → Bool) :
    ∀ (fuel : ℕ) (d r : ℤ), scan_back holidays fuel d = some r →
      is_business_day holidays r = true ∧ r ≤ d ∧
        ∀ e : ℤ, r < e → e ≤ d → is_business_day holidays e = false := by
  intro fuel
  induction fuel with
  | zero => intro d r h; simp [scan_back] at h
  | succ f ih =>
    intro d r h
    simp only [scan_back] at h
    by_cases hb : is_business_day holidays d = true
    · rw [if_pos hb] at h
      injection h with h; subst h
      exact ⟨hb, le_refl _, fun e he1 he2 => absurd (lt_of_lt_of_le he1 he2) (lt_irrefl _)⟩
    · rw [if_neg hb] at h
      obtain ⟨h1, h2, h3⟩ := ih (d - 1) r h
      simp only [Bool.not_eq_true] at hb
      refine ⟨h1, by omega, fun e he1 he2 => ?_⟩
      by_cases he : e = d
      · subst he; exact hb
      · exact h3 e he1 (by omega)

/-- Claim C3: in calendar-day mode, whenever the projection of pivot
`p` by interval `iv` records a result `r`, then: if `p + iv` is a
business day, `r` is exactly `p + iv`; otherwise `r` is the nearest
preceding business day — `r` is a business day, `r ≤ p + iv`, and every
day strictly between `r` and `p + iv` (inclusive) is non-business — so
the recorded projection is never the following business day.  With
`iv = 0` this yields the pivot's own timestamp if it is a business day,
else the nearest preceding business day. -/
theorem project_calendar_recorded_preceding
    (holidays : ℤ → Bool) (fuel : ℕ) (pivot_ts : ℤ) (iv : ℕ) (r : ℤ)
    (h : project_calendar_one holidays fuel pivot_ts iv = some r) :
    (is_business_day holidays (pivot_ts + iv) = true → r = pivot_ts + iv)
    ∧ (is_business_day holidays (pivot_ts + iv) = false →
        is_business_day holidays r = true ∧ r ≤ pivot_ts + iv ∧
          ∀ e : ℤ, r < e → e ≤ pivot_ts + iv →
            is_business_day holidays e = false) := by
  simp only [project_calendar_one] at h
  by_cases hb : is_business_day holidays (pivot_ts + iv) = true
  · rw [if_pos hb] at h
    injection h with h; subst h
    exact ⟨fun _ => rfl, fun hf => by rw [hb] at hf; cases hf⟩
  · rw [if_neg hb] at h
    refine ⟨fun hbt => absurd hbt hb, fun _ => ?_⟩
    cases hsb : scan_back holidays fuel (pivot_ts + iv) with
    | none => rw [hsb] at h; simp at h
    | some b =>
      cases hsf : scan_fwd holidays fuel (pivot_ts + iv) with
      | none => rw [hsb, hsf] at h; simp at h
      | some a =>
        rw [hsb, hsf] at h
        simp only [Option.some_inj] at h
        subst h
        exact scan_back_spec holidays fuel (pivot_ts + iv) b hsb

/-- Witness for the calendar-mode projection property: with day 4
(a Friday under the day-0-is-Monday convention) the only holiday,
projecting pivot 0 by 4 days lands on the holiday and records day 3,
the nearest preceding business day. -/
theorem project_calendar_recorded_preceding_witness :
    project_calendar_one (fun d => decide (d = 4)) 10 0 4 = some 3 ∧
    ((is_business_day (fun d => decide (d = 4)) ((0 : ℤ) + ((4 : ℕ) : ℤ)) = true →
        (3 : ℤ) = 0 + ((4 : ℕ) : ℤ))
     ∧ (is_business_day (fun d => decide (d = 4)) ((0 : ℤ) + ((4 : ℕ) : ℤ)) = false →
        is_business_day (fun d => decide (d = 4)) 3 = true ∧
          (3 : ℤ) ≤ 0 + ((4 : ℕ) : ℤ) ∧
          ∀ e : ℤ, 3 < e → e ≤ 0 + ((4 : ℕ) : ℤ) →
            is_business_day (fun d => decide (d = 4)) e = false)) :=
  ⟨by decide,
   project_calendar_recorded_preceding (fun d => decide (d = 4)) 10 0 4 3 (by decide)⟩


/-- Counterexample to claim C6 as stated for every pivot timestamp: a
pivot at minute 480 (08:00 on a Monday, before the session opens)
projected forward by one 5-minute bar lands at minute 485 (08:05),
whose time of day is before the 09:15 session open. -/
theorem project_bars_outside_session_counterexample :
    project_bars_one (fun _ => false) 5 30 480 1 = some 485 ∧
      485 % 1440 < 555 := by decide

lemma project_bars_loop_session_aux (holiday_set : ℕ → Bool)
    (interval_minutes : ℕ) (hΔ : 1 ≤ interval_minutes) :
    ∀ (fuel total t r : ℕ),
      project_bars_loop holiday_set interval_minutes fuel total t = some r →
      555 ≤ t % 1440 →
      (1 ≤ total ∨ t % 1440 ≤ 930 - interval_minutes) →
      555 ≤ r % 1440 ∧ r % 1440 ≤ 930 - interval_minutes := by
  intro fuel
  induction fuel with
  | zero =>
    intro total t r h h1 h2
    simp only [project_bars_loop] at h
    by_cases h0 : total = 0
    · rw [if_pos h0] at h
      injection h with h; subst h
      rcases h2 with h2 | h2
      · omega
      · exact ⟨h1, h2⟩
    · rw [if_neg h0] at h
      simp at h
  | succ f ih =>
    intro total t r h h1 h2
    simp only [project_bars_loop] at h
    by_cases h0 : total = 0
    · rw [if_pos h0] at h
      injection h with h; subst h
      rcases h2 with h2 | h2
      · omega
      · exact ⟨h1, h2⟩
    · rw [if_neg h0] at h
      by_cases hls : t / 1440 * 1440 + (930 - interval_minutes) ≤ t
      · rw [if_pos hls] at h
        cases hnv : next_valid_day holiday_set (f + 1) t with
        | none => rw [hnv] at h; simp at h
        | some t' =>
          rw [hnv] at h
          rw [next_valid_day, Option.map_eq_some'] at hnv
          obtain ⟨dd, -, rfl⟩ := hnv
          refine ih total (dd * 1440 + 555) r h (by omega) (Or.inl (by omega))
      · rw [if_neg hls] at h
        by_cases hbt :
            (t / 1440 * 1440 + (930 - interval_minutes) - t) / interval_minutes = 0
        · rw [if_pos hbt] at h
          cases hnv : next_valid_day holiday_set (f + 1) t with
          | none => rw [hnv] at h; simp at h
          | some t' =>
            rw [hnv] at h
            rw [next_valid_day, Option.map_eq_some'] at hnv
            obtain ⟨dd, -, rfl⟩ := hnv
            refine ih total (dd * 1440 + 555) r h (by omega) (Or.inl (by omega))
        · rw [if_neg hbt] at h
          have hmul :
              min total ((t / 1440 * 1440 + (930 - interval_minutes) - t) /
                  interval_minutes) * interval_minutes ≤
                t / 1440 * 1440 + (930 - interval_minutes) - t :=
            le_trans (Nat.mul_le_mul_right interval_minutes (min_le_right _ _))
              (Nat.div_mul_le_self _ _)
          refine ih _ _ r h (by omega) (Or.inr (by omega))

/-- Claim C6, amended: every projected timestamp produced by bar-count
mode falls within the 09:15–15:29 session window on its date, provided
the pivot's own time of day is not before the 09:15 session open (as
holds for pivots taken from session bars); this holds for every holiday
set, every bar size of at least one minute, and every positive
interval.  (The unamended claim, quantified over arbitrary pivot
timestamps, fails for pre-open pivots, which consume bars from their
out-of-session start time.) -/
theorem project_bars_session_window (holiday_set : ℕ → Bool)
    (interval_minutes fuel pivot_ts iv r : ℕ)
    (hΔ : 1 ≤ interval_minutes) (hiv : 1 ≤ iv)
    (hsess : 555 ≤ pivot_ts % 1440)
    (h : project_bars_one holiday_set interval_minutes fuel pivot_ts iv = some r) :
    555 ≤ r % 1440 ∧ r % 1440 ≤ 929 := by
  obtain ⟨h1, h2⟩ :=
    project_bars_loop_session_aux holiday_set interval_minutes hΔ fuel iv
      pivot_ts r h hsess (Or.inl hiv)
  exact ⟨h1, by omega⟩

/-- Witness for the amended session-window property: three 5-minute
bars projected from a pivot at 09:15 on a Monday land at 09:30, inside
the session window. -/
theorem project_bars_session_window_witness :
    (1 ≤ 5 ∧ 1 ≤ 3 ∧ 555 ≤ 555 % 1440 ∧
      project_bars_one (fun _ => false) 5 30 555 3 = some 570) ∧
    (555 ≤ 570 % 1440 ∧ 570 % 1440 ≤ 929) :=
  ⟨⟨by decide, by decide, by decide, by decide⟩,
   project_bars_session_window (fun _ => false) 5 30 555 3 570
     (by decide) (by decide) (by decide) (by decide)⟩


/-! ## Triangle geometry (`engine/triangle.py`) -/

/-- `calculate_symmetry_score(pivot_idx, left_idx, right_idx,
pivot_price, left_price, right_price)` of `engine/triangle.py`.  The
Python body divides by `max(left_duration, right_duration)` and by
`max(left_move, right_move)` with no zero guard, so a zero denominator
raises `ZeroDivisionError` (embedded as `none`; the time term is
evaluated first, as in the source). -/
def calculate_symmetry_score (pivot_idx left_idx right_idx : ℤ)
    (pivot_price left_price right_price : ℚ) : Option ℚ :=
  let left_duration := pivot_idx - left_idx
  let right_duration := right_idx - pivot_idx
  if max left_duration right_duration = 0 then none
  else
    let time_symmetry : ℚ :=
      100 * (1 - ((|left_duration - right_duration| : ℤ) : ℚ) /
        ((max left_duration right_duration : ℤ) : ℚ))
    let left_move := |pivot_price - left_price|
    let right_move := |pivot_price - right_price|
    if max left_move right_move = 0 then none
    else
      let move_symmetry : ℚ :=
        100 * (1 - |left_move - right_move| / max left_move right_move)
      some ((time_symmetry + move_symmetry) / 2)

/-- Claim C5 (refuted — the guard does not exist): at a pivot whose left
and right base prices both equal the pivot price (indices 0 < 1 < 2,
all prices 100), the price-symmetry denominator
`max(left_move, right_move)` is zero and `calculate_symmetry_score`
divides by zero (embedded result `none`, i.e. the Python call raises
`ZeroDivisionError`) instead of returning a value with that term
defined as 100. -/
theorem symmetry_score_zero_denominator_raises :
    calculate_symmetry_score 1 0 2 100 100 100 = none := by
  simp only [calculate_symmetry_score]
  rw [if_neg (by norm_num), if_pos (by norm_num)]

/-- Counterexample to claim C7 as stated: swapping the two base-point
argument pairs (indices 3 and 9 around pivot 5, prices 5 and 7 around
pivot price 10) changes the score — the naive swap makes both durations
negative, turning the time-symmetry term from 50 into 200 (score 55
versus 130). -/
theorem symmetry_swap_counterexample :
    calculate_symmetry_score 5 3 9 10 5 7 ≠
      calculate_symmetry_score 5 9 3 10 7 5 := by
  have h1 : calculate_symmetry_score 5 3 9 10 5 7 = some 55 := by
    simp only [calculate_symmetry_score]
    rw [if_neg (by norm_num), if_neg (by norm_num)]
    norm_num
  have h2 : calculate_symmetry_score 5 9 3 10 7 5 = some 130 := by
    simp only [calculate_symmetry_score]
    rw [if_neg (by norm_num), if_neg (by norm_num)]
    norm_num
  rw [h1, h2]
  simp

/-- Claim C7, amended: the symmetry score is invariant to exchanging
the left and right base points when the exchanged bar indices are
mirrored about the pivot index (so each side keeps its duration:
the new left index is `2·p − r` and the new right index is `2·p − l`),
with the base prices exchanged as in the claim.  The literal argument
swap of the claim negates both durations and changes the
time-symmetry term, so it does not preserve the score. -/
theorem symmetry_score_swap_mirrored (p l r : ℤ) (pp lp rp : ℚ) :
    calculate_symmetry_score p l r pp lp rp =
      calculate_symmetry_score p (2 * p - r) (2 * p - l) pp rp lp := by
  simp only [calculate_symmetry_score]
  have h1 : p - (2 * p - r) = r - p := by ring
  have h2 : 2 * p - l - p = p - l := by ring
  rw [h1, h2, max_comm (r - p) (p - l), abs_sub_comm (r - p) (p - l),
    max_comm |pp - rp| |pp - lp|, abs_sub_comm |pp - rp| |pp - lp|]

/-- The three classification outcomes of `classify_triangle`. -/
inductive TriangleType where
  | equilateral
  | isosceles
  | scalene
deriving DecidableEq, Repr

/-- `al, ar, lr = sorted(sides)`: the three side lengths in ascending
order (smallest, middle = sum − smallest − largest, largest). -/
def sort3 (a b c : ℚ) : ℚ × ℚ × ℚ :=
  (min a (min b c), a + b + c - min a (min b c) - max a (max b c),
   max a (max b c))

/-- `classify_triangle(sides, tolerance)` of `engine/triangle.py`:
sort the sides ascending, equilateral if largest/smallest is within
`1 + tolerance/100`, else isosceles if either adjacent ratio is within
the tolerance, else scalene. -/
def classify_triangle (sides : ℚ × ℚ × ℚ) (tolerance : ℚ) : TriangleType :=
  let s := sort3 sides.1 sides.2.1 sides.2.2
  let al := s.1
  let ar := s.2.1
  let lr := s.2.2
  if lr / al ≤ 1 + tolerance / 100 then .equilateral
  else if ar / al ≤ 1 + tolerance / 100 ∨ lr / ar ≤ 1 + tolerance / 100 then
    .isosceles
  else .scalene

/-- Claim C8: triangle classification is invariant to uniform scaling
of the three side lengths by any positive factor — it depends only on
the pairwise ratios of the sorted sides, which cancel the factor. -/
theorem classify_triangle_scale_invariant (a b c tolerance k : ℚ)
    (_ha : 0 < a) (_hb : 0 < b) (_hc : 0 < c) (hk : 0 < k) :
    classify_triangle (k * a, k * b, k * c) tolerance =
      classify_triangle (a, b, c) tolerance := by
  have hk' : k ≠ 0 := ne_of_gt hk
  have hk0 : (0 : ℚ) ≤ k := le_of_lt hk
  have hmin : min (k * a) (min (k * b) (k * c)) = k * min a (min b c) := by
    rw [← mul_min_of_nonneg _ _ hk0, ← mul_min_of_nonneg _ _ hk0]
  have hmax : max (k * a) (max (k * b) (k * c)) = k * max a (max b c) := by
    rw [← mul_max_of_nonneg _ _ hk0, ← mul_max_of_nonneg _ _ hk0]
  have hmid : k * a + k * b + k * c - k * min a (min b c) - k * max a (max b c)
      = k * (a + b + c - min a (min b c) - max a (max b c)) := by ring
  have hdiv : ∀ x y : ℚ, k * x / (k * y) = x / y := fun x y =>
    mul_div_mul_left x y hk'
  simp only [classify_triangle, sort3, hmin, hmax, hmid, hdiv]

/-- Witness for the scale-invariance of triangle classification:
doubling the sides (3, 4, 5) (a scalene triangle at 10% tolerance)
leaves the classification unchanged. -/
theorem classify_triangle_scale_invariant_witness :
    (0 < (3 : ℚ) ∧ 0 < (4 : ℚ) ∧ 0 < (5 : ℚ) ∧ 0 < (2 : ℚ)) ∧
      classify_triangle ((2 : ℚ) * 3, (2 : ℚ) * 4, (2 : ℚ) * 5) 10 =
        classify_triangle (3, 4, 5) 10 :=
  ⟨⟨by norm_num, by norm_num, by norm_num, by norm_num⟩,
   classify_triangle_scale_invariant 3 4 5 10 2
     (by norm_num) (by norm_num) (by norm_num) (by norm_num)⟩


/-! ## Reversal backtesting (`engine/backtesting.py`)

The price dataframe is a list of candles with integer timestamps (the
unique ascending index) and rational OHLC columns;
`price_data.index.get_loc(date)` is position lookup by timestamp. -/

/-- One row of the price dataframe. -/
structure Candle where
  ts : ℤ
  Open : ℚ
  High : ℚ
  Low : ℚ
  Close : ℚ
deriving DecidableEq, Repr

/-- `price_data.index.get_loc(date)`: the position of the (unique) bar
with the given timestamp, `none` when the date is absent (pandas raises
`KeyError`). -/
def get_loc : List Candle → ℤ → Option ℕ
  | [], _ => none
  | c :: rest, d =>
    if c.ts = d then some 0 else (get_loc rest d).map (· + 1)

/-- `get_trend_before(price_data, projected_date, lookback)` of
`engine/backtesting.py`: locate the projected bar, require `lookback`
prior bars, and take the sign of the degree-1 least-squares slope of
the `lookback` closes immediately before it (`np.polyfit(x, closes,
1)[0]` over `x = 0 … lookback−1`, written in exact arithmetic as
`(n·Σxy − Σx·Σy) / (n·Σx² − (Σx)²)`).  `"UP"` iff the slope is
positive, else `"DOWN"`; `none` when the date is absent or history is
short (the Python `try/except` returns `None`). -/
def get_trend_before (price_data : List Candle) (projected_date : ℤ)
    (lookback : ℕ) : Option String :=
  match get_loc price_data projected_date with
  | none => none
  | some before_idx =>
    if before_idx < lookback then none
    else
      let closes :=
        ((price_data.drop (before_idx - lookback)).take lookback).map
          (fun c => c.Close)
      let n : ℚ := lookback
      let sx : ℚ := ((List.range lookback).map (fun i => (i : ℚ))).sum
      let sxx : ℚ := ((List.range lookback).map (fun i => (i : ℚ) ^ 2)).sum
      let sy : ℚ := closes.sum
      let sxy : ℚ := (closes.enum.map (fun p => (p.1 : ℚ) * p.2)).sum
      let slope := (n * sxy - sx * sy) / (n * sxx - sx ^ 2)
      if slope > 0 then some "UP" else some "DOWN"

/-- The scan over `future_candles` in `validate_reversal`: `i` counts
bars from 1, `consecutive_count` counts the current run of closes
below (trend `"UP"`) or above (trend `"DOWN"`) the projected close;
when the run reaches `min_success_candles` the scan stops with the
reversal date and `i - min_success_candles + 1` candles-to-reversal. -/
def revLoop (proj_close : ℚ) (up : Bool) (min_success_candles : ℕ) :
    List Candle → ℕ → ℕ → Option (ℤ × ℕ)
  | [], _, _ => none
  | candle :: rest, i, consecutive_count =>
    let hit : Bool :=
      if up then decide (candle.Close < proj_close)
      else decide (candle.Close > proj_close)
    if hit then
      let cc := consecutive_count + 1
      if min_success_candles ≤ cc then
        some (candle.ts, i - min_success_candles + 1)
      else revLoop proj_close up min_success_candles rest (i + 1) cc
    else revLoop proj_close up min_success_candles rest (i + 1) 0

/-- The `ValidationResult` dictionary of `validate_reversal`
(`success, reversal_date, candles_to_reversal, prior_trend, reason`). -/
structure VResult where
  success : Bool
  reversal_date : Option ℤ
  candles_to_reversal : ℕ
  prior_trend : Option String
  reason : String
deriving DecidableEq, Repr

/-- `validate_reversal(price_data, projected_date, source_pivot_type,
tolerance_window, min_success_candles)` of `engine/backtesting.py`:
fail fast when the projected date is absent, when fewer than 5 prior
bars exist (the trend lookback is the call-site default), or when
`proj_idx + tolerance_window ≥ len(price_data)`; otherwise scan up to
`tolerance_window` future bars for a qualifying consecutive run.
The `source_pivot_type` parameter is accepted but never read. -/
def validate_reversal (price_data : List Candle) (projected_date : ℤ)
    (source_pivot_type : String) (tolerance_window : ℕ)
    (min_success_candles : ℕ) : VResult :=
  match get_loc price_data projected_date with
  | none =>
    { success := false, reversal_date := none, candles_to_reversal := 0,
      prior_trend := none, reason := "Projected date not in data" }
  | some proj_idx =>
    match get_trend_before price_data projected_date 5 with
    | none =>
      { success := false, reversal_date := none, candles_to_reversal := 0,
        prior_trend := none, reason := "Insufficient data before projection" }
    | some prior_trend =>
      if price_data.length ≤ proj_idx + tolerance_window then
        { success := false, reversal_date := none, candles_to_reversal := 0,
          prior_trend := some prior_trend, reason := "Insufficient future data" }
      else
        let proj_candle := price_data.getD proj_idx ⟨0, 0, 0, 0, 0⟩
        let future_candles := (price_data.drop (proj_idx + 1)).take tolerance_window
        match revLoop proj_candle.Close (decide (prior_trend = "UP"))
            min_success_candles future_candles 1 0 with
        | some (dt, k) =>
          { success := true, reversal_date := some dt, candles_to_reversal := k,
            prior_trend := some prior_trend, reason := "Success" }
        | none =>
          { success := false, reversal_date := none, candles_to_reversal := 0,
            prior_trend := some prior_trend, reason := "No reversal within window" }

/-- A `validate_reversal` result annotated with the projection it came
from, as `analyze_all_projections` adds `source_date`, `interval` and
`projected_date` to each result dictionary. -/
structure AnnResult where
  res : VResult
  source_date : ℤ
  interval : ℕ
  projected_date : ℤ
deriving DecidableEq, Repr

/-- `analyze_all_projections(projections, price_data,
tolerance_window, min_success_candles, lookback_candles)` of
`engine/backtesting.py` (the `lookback_candles` parameter is never
passed on — `validate_reversal` uses the default lookback 5): for each
projection, re-derive the source pivot type from the source bar's
close position between its high and low and validate the projection;
`none` models the `KeyError` escape when a source date is absent from
the data (the interval-statistics aggregation consuming the result
list is not needed here and is omitted). -/
def analyze_all_projections (projections : List (ℤ × ℕ × ℤ))
    (price_data : List Candle) (tolerance_window : ℕ)
    (min_success_candles : ℕ) (lookback_candles : ℕ := 5) :
    Option (List AnnResult) :=
  projections.mapM (fun proj =>
    (get_loc price_data proj.1).map (fun source_idx =>
      let source_candle := price_data.getD source_idx ⟨0, 0, 0, 0, 0⟩
      let source_type :=
        if |source_candle.High - source_candle.Close| <
            |source_candle.Close - source_candle.Low| then "H" else "L"
      { res := validate_reversal price_data proj.2.2 source_type
          tolerance_window min_success_candles,
        source_date := proj.1, interval := proj.2.1,
        projected_date := proj.2.2 }))


/-- A six-bar strictly rising series (closes 1…6) with timestamps 0…5. -/
def sixRising : List Candle :=
  [⟨0, 0, 0, 0, 1⟩, ⟨1, 0, 0, 0, 2⟩, ⟨2, 0, 0, 0, 3⟩,
   ⟨3, 0, 0, 0, 4⟩, ⟨4, 0, 0, 0, 5⟩, ⟨5, 0, 0, 0, 6⟩]

/-- Counterexample to claim C4 as stated: validating projected date 5
(the last bar of `sixRising`) with tolerance window 1 fails with
`"Insufficient future data"`, but the prior-trend field carries the
computed trend `"UP"` — it is not left empty as the claim asserts for
all three failure kinds. -/
theorem validate_reversal_trend_populated_counterexample :
    (validate_reversal sixRising 5 "H" 1 1).reason =
      "Insufficient future data" ∧
    (validate_reversal sixRising 5 "H" 1 1).prior_trend = some "UP" := by
  have hloc : get_loc sixRising 5 = some 5 := by simp [sixRising, get_loc]
  have htr : get_trend_before sixRising 5 5 = some "UP" := by
    simp [get_trend_before, sixRising, get_loc, List.range_succ, List.enum]
    norm_num
  rw [validate_reversal, hloc, htr]
  simp [sixRising]

lemma mapM_option_length {α β : Type} (f : α → Option β) :
    ∀ (l : List α) (res : List β), l.mapM f = some res →
      res.length = l.length := by
  intro l
  induction l with
  | nil =>
    intro res h
    simp only [List.mapM_nil, Option.pure_def, Option.some_inj] at h
    subst h
    rfl
  | cons a l ih =>
    intro res h
    rw [List.mapM_cons] at h
    cases ha : f a with
    | none => rw [ha] at h; simp at h
    | some b =>
      rw [ha] at h
      cases hl : l.mapM f with
      | none => rw [hl] at h; simp at h
      | some bs =>
        rw [hl] at h
        simp at h
        subst h
        simp [ih bs hl]

/-- Claim C4, amended: `validate_reversal` fails a single projection
with the documented reason in each of the three cases — projected date
absent, insufficient history, insufficient future bars — leaving the
candles-to-reversal field at its empty default (0) in all three and the
prior-trend field empty in the first two; in the insufficient-future
case, however, the prior-trend field carries the already-computed
trend rather than being left empty.  `analyze_all_projections` does
not abort on such per-item failures: whenever it returns a batch, the
batch has one result per projection, successes and documented failures
mixed. -/
theorem validate_reversal_failure_modes
    (price_data : List Candle) (d : ℤ) (sty : String) (tw ms : ℕ) :
    (get_loc price_data d = none →
      validate_reversal price_data d sty tw ms =
        ⟨false, none, 0, none, "Projected date not in data"⟩)
    ∧ (∀ i : ℕ, get_loc price_data d = some i →
        get_trend_before price_data d 5 = none →
        validate_reversal price_data d sty tw ms =
          ⟨false, none, 0, none, "Insufficient data before projection"⟩)
    ∧ (∀ (i : ℕ) (t : String), get_loc price_data d = some i →
        get_trend_before price_data d 5 = some t →
        price_data.length ≤ i + tw →
        validate_reversal price_data d sty tw ms =
          ⟨false, none, 0, some t, "Insufficient future data"⟩)
    ∧ (∀ (projections : List (ℤ × ℕ × ℤ)) (res : List AnnResult),
        analyze_all_projections projections price_data tw ms = some res →
        res.length = projections.length) := by
  refine ⟨?_, ?_, ?_, ?_⟩
  · intro h; rw [validate_reversal, h]
  · intro i h1 h2; rw [validate_reversal, h1, h2]
  · intro i t h1 h2 h3
    simp only [validate_reversal, h1, h2]
    rw [if_pos h3]
  · intro projs res h
    simp only [analyze_all_projections] at h
    exact mapM_option_length _ projs res h

/-- Witness for the failure-mode property: on the empty series every
projected date is absent, and validation fails with the documented
reason and empty prior-trend/candles fields. -/
theorem validate_reversal_failure_modes_witness :
    validate_reversal [] 0 "H" 1 1 =
      ⟨false, none, 0, none, "Projected date not in data"⟩ :=
  (validate_reversal_failure_modes [] 0 "H" 1 1).1 rfl

/-- Claim C10: the outcome of `validate_reversal` is independent of its
`source_pivot_type` argument — the parameter is bound but never read,
so two calls that differ only in it (for example `"H"` versus `"L"` as
re-derived in `analyze_all_projections`) return identical results in
every field. -/
theorem validate_reversal_ignores_pivot_type
    (price_data : List Candle) (projected_date : ℤ) (t1 t2 : String)
    (tolerance_window min_success_candles : ℕ) :
    validate_reversal price_data projected_date t1 tolerance_window
        min_success_candles =
      validate_reversal price_data projected_date t2 tolerance_window
        min_success_candles := rfl


/-- Counterexample to claim C9 as stated: with a three-bar series and
window radius 3 (radius = series length), `detect_pivots` raises no
configuration error and does not abort — the scan range
`range(3, 3 - 3)` is empty and the function returns an ordinary empty
pivot table. -/
theorem detect_pivots_radius_too_large_counterexample :
    detect_pivots [1, 2, 3] [0, 1, 2] 3 0 true = [] := rfl

/-- Claim C9, amended: when the window radius is greater than or equal
to the series length, `detect_pivots` performs no input validation and
signals no configuration error; its scan range
`range(rng, len - rng)` is empty and it silently returns an empty
pivot table, with which the run continues. -/
theorem detect_pivots_radius_ge_length_empty
    (highs lows : List ℚ) (rng : ℕ) (mm : ℚ) (ra : Bool)
    (h : highs.length ≤ rng) :
    detect_pivots highs lows rng mm ra = [] := by
  unfold detect_pivots
  have h0 : highs.length - rng - rng = 0 := by omega
  rw [h0]
  rfl

/-- Witness for the empty-result property at radius = length = 3. -/
theorem detect_pivots_radius_ge_length_empty_witness :
    ([1, 2, 3] : List ℚ).length ≤ 3 ∧
      detect_pivots [1, 2, 3] [0, 1, 2] 3 1 false = [] :=
  ⟨by decide,
   detect_pivots_radius_ge_length_empty [1, 2, 3] [0, 1, 2] 3 1 false
     (by decide)⟩

end TimeCycle
